import Mathlib

/-!
Verification of the dash-dao notification / email-delivery core.

The definitions below are a shallow embedding of the TypeScript sources:
 - `src/backend-express/utils/email.ts` (address validator / normalizer)
 - `src/backend-express/services/txEmail.ts` (delivery engine, progress)
 - `src/backend-express/services/notificationService.ts` (store, cooldown)
 - the auto-user audit ring buffer.

JavaScript strings are modelled by Lean `String`; `trim` / `toLowerCase` /
`toUpperCase` are modelled for the ASCII range, which covers every string the
verified properties evaluate.  Network transports and the SMTP `sendMail`
call are external I/O and are modelled by oracles: `resolve` maps the
excluded-host list to the host `getTransport` returns, and `sendResult k`
is the outcome of the k-th `sendMail` invocation.  Waiting (`sleep`) has no
observable effect in the embedding and is dropped; the unbounded
retry-same-batch loop of `deliverEmailJob` is run on explicit fuel.
-/

namespace DashDao

/-- JS whitespace test, restricted to the ASCII characters that occur here
(models the character class trimmed by `String.prototype.trim`). -/
def isJsSpace (c : Char) : Bool :=
  c == ' ' || c == '\t' || c == '\n' || c == '\r'

/-- `String.prototype.trim` (ASCII whitespace model). -/
def jsTrim (s : String) : String :=
  String.mk (((s.data.dropWhile isJsSpace).reverse.dropWhile isJsSpace).reverse)

/-- `String.prototype.toLowerCase` (ASCII model). -/
def jsToLower (s : String) : String :=
  String.mk (s.data.map Char.toLower)

/-- `String.prototype.toUpperCase` (ASCII model). -/
def jsToUpper (s : String) : String :=
  String.mk (s.data.map Char.toUpper)

/-- `[a-z0-9]` with the regex `i` flag: an ASCII letter or digit. -/
def isLabelAlnum (c : Char) : Bool :=
  ('a' ≤ c && c ≤ 'z') || ('A' ≤ c && c ≤ 'Z') || ('0' ≤ c && c ≤ '9')

/-- The local-part character class of `EMAIL_REGEX` in
`src/backend-express/utils/email.ts` (with the `i` flag).  The punctuation
members of the class are listed by code point: `!`(33) `#`(35) `$`(36)
`%`(37) `&`(38) apostrophe(39) `*`(42) `+`(43) `-`(45) `.`(46) `/`(47)
`=`(61) `?`(63) `^`(94) `_`(95) backquote(96) left-brace(123) bar(124)
right-brace(125) tilde(126). -/
def isLocalChar (c : Char) : Bool :=
  isLabelAlnum c ||
    [33, 35, 36, 37, 38, 39, 42, 43, 45, 46, 47, 61, 63, 94, 95, 96,
      123, 124, 125, 126].contains c.toNat

/-- One domain label of `EMAIL_REGEX`:
`[a-z0-9](?:[a-z0-9-]{0,61}[a-z0-9])?` — 1 to 63 characters, letters,
digits or hyphens, first and last character alphanumeric. -/
def labelOk (l : List Char) : Bool :=
  !l.isEmpty && l.length ≤ 63 &&
    l.all (fun c => isLabelAlnum c || c == '-') &&
    (match l.head? with | some a => isLabelAlnum a | none => false) &&
    (match l.getLast? with | some a => isLabelAlnum a | none => false)

/-- Split a character list at every occurrence of `sep` (occurrences are
dropped; adjacent separators yield empty chunks, as `String.split` would). -/
def splitOnChar (sep : Char) : List Char → List (List Char)
  | [] => [[]]
  | c :: rest =>
    let r := splitOnChar sep rest
    if c == sep then [] :: r
    else
      match r with
      | h :: t => (c :: h) :: t
      | [] => [[c]]

/-- `EMAIL_REGEX.test`: a non-empty local part of `isLocalChar` characters,
one `@`, and at least two dot-separated labels each matching `labelOk`.
Neither character class contains `@`, so the regex matches exactly the
strings with a single `@` whose two sides have this shape. -/
def emailRegexTest (s : String) : Bool :=
  match splitOnChar '@' s.data with
  | [loc, domain] =>
    !loc.isEmpty && loc.all isLocalChar &&
      (let labels := splitOnChar '.' domain
       2 ≤ labels.length && labels.all labelOk)
  | _ => false

/-- `normalizeEmail` from `utils/email.ts`: `none` models a non-string
(`null`/`undefined`) input; a string is trimmed, an empty trim yields
`null`, otherwise the trimmed string is lowercased. -/
def normalizeEmail (v : Option String) : Option String :=
  match v with
  | none => none
  | some s =>
    let t := jsTrim s
    if t = "" then none else some (jsToLower t)

/-- `isValidEmail` from `utils/email.ts`. -/
def isValidEmail (v : Option String) : Bool :=
  match normalizeEmail v with
  | none => false
  | some n => emailRegexTest n

/-- `partitionEmails` from `utils/email.ts`.  Each input is normalized;
a `null` normalization is dropped unless the original value was truthy
(a non-empty string), in which case its trimmed echo goes to `invalid`;
otherwise the normalized value goes to `valid` or `invalid` according to
`EMAIL_REGEX.test`. -/
def partitionEmails : List (Option String) → List String × List String
  | [] => ([], [])
  | v :: rest =>
    let p := partitionEmails rest
    match normalizeEmail v with
    | none =>
      match v with
      | none => p
      | some s => if s = "" then p else (p.1, jsTrim s :: p.2)
    | some n =>
      if emailRegexTest n then (n :: p.1, p.2) else (p.1, n :: p.2)

/-- `Array.from(new Set(xs))`: deduplication keeping first occurrences
(auxiliary accumulator of already-seen values). -/
def dedupFirstAux (seen : List String) : List String → List String
  | [] => []
  | a :: rest =>
    if seen.contains a then dedupFirstAux seen rest
    else a :: dedupFirstAux (a :: seen) rest

/-- `Array.from(new Set(xs))` over a string list. -/
def dedupFirst (l : List String) : List String :=
  dedupFirstAux [] l

theorem mem_dedupFirstAux {seen l : List String} {a : String}
    (h : a ∈ dedupFirstAux seen l) : a ∈ l := by
  induction l generalizing seen with
  | nil => simp [dedupFirstAux] at h
  | cons b rest ih =>
    rw [dedupFirstAux] at h
    by_cases hb : seen.contains b
    · rw [if_pos hb] at h
      exact List.mem_cons_of_mem _ (ih h)
    · rw [if_neg hb] at h
      rcases List.mem_cons.mp h with h | h
      · exact h ▸ List.mem_cons_self _ _
      · exact List.mem_cons_of_mem _ (ih h)

theorem mem_dedupFirst {l : List String} {a : String}
    (h : a ∈ dedupFirst l) : a ∈ l :=
  mem_dedupFirstAux h

/-- A truthy string whose normalization is null trims to the empty
string, which fails `EMAIL_REGEX.test`. -/
theorem echoTest_false {s' : String}
    (hn : normalizeEmail (some s') = none) :
    emailRegexTest (jsTrim s') = false := by
  have htrim : jsTrim s' = "" := by
    by_contra hne
    simp [normalizeEmail, hne] at hn
  rw [htrim]
  rfl

/-- Every member of the `valid` output of `partitionEmails` passes
`EMAIL_REGEX.test`. -/
theorem mem_valid_partitionEmails {l : List (Option String)} {s : String}
    (h : s ∈ (partitionEmails l).1) : emailRegexTest s = true := by
  induction l with
  | nil => simp [partitionEmails] at h
  | cons v rest ih =>
    simp only [partitionEmails] at h
    split at h
    · split at h
      · exact ih h
      · split at h
        · exact ih h
        · exact ih h
    · split at h
      · rename_i ht
        rcases List.mem_cons.mp h with h | h
        · exact h ▸ ht
        · exact ih h
      · exact ih h

/-- Every member of the `invalid` output of `partitionEmails` fails
`EMAIL_REGEX.test` (the trimmed echo of a truthy unparseable value is
the empty string, which fails the test). -/
theorem mem_invalid_partitionEmails {l : List (Option String)} {s : String}
    (h : s ∈ (partitionEmails l).2) : emailRegexTest s = false := by
  induction l with
  | nil => simp [partitionEmails] at h
  | cons v rest ih =>
    simp only [partitionEmails] at h
    split at h
    · split at h
      · exact ih h
      · split at h
        · exact ih h
        · rcases List.mem_cons.mp h with h | h
          · rw [h]
            exact echoTest_false (by assumption)
          · exact ih h
    · split at h
      · exact ih h
      · rcases List.mem_cons.mp h with h | h
        · subst h
          rename_i ht
          simpa using ht
        · exact ih h

/-- The `valid` list only grows when an element is prepended to the input. -/
theorem subset_valid_partitionEmails (x : Option String)
    (rest : List (Option String)) :
    (partitionEmails rest).1 ⊆ (partitionEmails (x :: rest)).1 := by
  intro a ha
  simp only [partitionEmails]
  split
  · split
    · exact ha
    · split
      · exact ha
      · exact ha
  · split
    · exact List.mem_cons_of_mem _ ha
    · exact ha

/-- The `invalid` list only grows when an element is prepended to the
input. -/
theorem subset_invalid_partitionEmails (x : Option String)
    (rest : List (Option String)) :
    (partitionEmails rest).2 ⊆ (partitionEmails (x :: rest)).2 := by
  intro a ha
  simp only [partitionEmails]
  split
  · split
    · exact ha
    · split
      · exact ha
      · exact List.mem_cons_of_mem _ ha
  · split
    · exact ha
    · exact List.mem_cons_of_mem _ ha

/-- C6: for every input list, `partitionEmails` never places the same
normalized value in both output lists, and every truthy (non-empty,
present) input is accounted for: its normalized form reaches `valid` or
`invalid`, or — when normalization yields null — its trimmed echo reaches
`invalid`.  Only `null`/`undefined`/empty inputs are dropped. -/
theorem partitionEmails_disjoint_cover (inputs : List (Option String)) :
    (∀ s, s ∈ (partitionEmails inputs).1 → s ∉ (partitionEmails inputs).2) ∧
    (∀ v, some v ∈ inputs → v ≠ "" →
      (∀ n, normalizeEmail (some v) = some n →
        n ∈ (partitionEmails inputs).1 ∨ n ∈ (partitionEmails inputs).2) ∧
      (normalizeEmail (some v) = none →
        jsTrim v ∈ (partitionEmails inputs).2)) := by
  constructor
  · intro s hv hi
    have h1 := mem_valid_partitionEmails hv
    have h2 := mem_invalid_partitionEmails hi
    rw [h1] at h2
    exact absurd h2 (by simp)
  · intro v hv hne
    induction inputs with
    | nil => simp at hv
    | cons x rest ih =>
      rcases List.mem_cons.mp hv with hx | hx
      · subst hx
        constructor
        · intro n hn
          by_cases ht : emailRegexTest n = true
          · simp only [partitionEmails, hn, ht]
            exact Or.inl (List.mem_cons_self _ _)
          · simp only [Bool.not_eq_true] at ht
            simp only [partitionEmails, hn, ht]
            exact Or.inr (List.mem_cons_self _ _)
        · intro hn
          simp only [partitionEmails, hn, if_neg hne]
          exact List.mem_cons_self _ _
      · have hrest := ih hx
        constructor
        · intro n hn
          rcases hrest.1 n hn with hr | hr
          · exact Or.inl (subset_valid_partitionEmails x rest hr)
          · exact Or.inr (subset_invalid_partitionEmails x rest hr)
        · intro hn
          exact subset_invalid_partitionEmails x rest (hrest.2 hn)

/-- Witness for C6 at a concrete list: `"A@x.com "` normalizes to
`"a@x.com"` and lands in `valid`, and it is not also in `invalid`. -/
theorem partitionEmails_disjoint_cover_witness :
    ("a@x.com" ∈
        (partitionEmails [some "A@x.com ", some "not-an-email", some " "]).1 ∨
      "a@x.com" ∈
        (partitionEmails [some "A@x.com ", some "not-an-email", some " "]).2) ∧
    "a@x.com" ∉
      (partitionEmails [some "A@x.com ", some "not-an-email", some " "]).2 := by
  have h := partitionEmails_disjoint_cover
    [some "A@x.com ", some "not-an-email", some " "]
  have hc := (h.2 "A@x.com " (by simp) (by decide)).1 "a@x.com" (by decide)
  refine ⟨hc, ?_⟩
  rcases hc with hv | hv
  · exact h.1 _ hv
  · intro _
    have hbad := mem_invalid_partitionEmails hv
    have hT : emailRegexTest "a@x.com" = true := by decide
    rw [hT] at hbad
    exact absurd hbad (by simp)

/-! ### computeDaoProgress (`services/txEmail.ts`) -/

/-- A DAO sub-task, restricted to the fields `computeDaoProgress` reads:
`isApplicable` and `progress` (`undefined` progress is `none`). -/
structure DaoTask where
  isApplicable : Bool
  progress : Option ℚ
  deriving DecidableEq, Repr

/-- A DAO record, restricted to its `tasks` list (the only field
`computeDaoProgress` reads). -/
structure Dao where
  tasks : List DaoTask
  deriving DecidableEq, Repr

/-- JavaScript `Math.round`: half-up rounding, `⌊x + 1/2⌋`. -/
def jsRound (q : ℚ) : ℤ :=
  ⌊q + 1 / 2⌋

/-- `computeDaoProgress` from `services/txEmail.ts`: 0 when no task is
applicable, otherwise `Math.round` of the `reduce`-accumulated progress
sum (missing progress read as 0) divided by the applicable count. -/
def computeDaoProgress (dao : Dao) : ℤ :=
  let applicable := dao.tasks.filter (fun t => t.isApplicable)
  if applicable.length = 0 then 0
  else
    jsRound
      ((applicable.foldl (fun acc t => acc + t.progress.getD 0) 0) /
        (applicable.length : ℚ))

/-- Modelled from the spec words of C5: the arithmetic mean of the
progress values (missing treated as 0) over exactly the applicable
tasks, rounded to the nearest integer (half up, as `Math.round`), and 0
when no task is applicable. -/
def specDaoProgress (dao : Dao) : ℤ :=
  let applicable := dao.tasks.filter (fun t => t.isApplicable)
  if applicable.length = 0 then 0
  else
    jsRound
      (((applicable.map (fun t => t.progress.getD 0)).sum) /
        (applicable.length : ℚ))

theorem foldl_progress_eq_sum (l : List DaoTask) (a : ℚ) :
    l.foldl (fun acc t => acc + t.progress.getD 0) a =
      a + (l.map (fun t => t.progress.getD 0)).sum := by
  induction l generalizing a with
  | nil => simp
  | cons t rest ih =>
    simp only [List.foldl_cons, List.map_cons, List.sum_cons, ih]
    ring

/-- C5: `computeDaoProgress` equals the rounded arithmetic mean of
`progress` (missing treated as 0) over exactly the applicable tasks,
equals 0 when no task is applicable, and returns 20 on the spec's
example task list. -/
theorem computeDaoProgress_spec :
    (∀ dao : Dao, computeDaoProgress dao = specDaoProgress dao) ∧
    (∀ dao : Dao, dao.tasks.filter (fun t => t.isApplicable) = [] →
      computeDaoProgress dao = 0) ∧
    computeDaoProgress
      ⟨[⟨true, some 10⟩, ⟨true, some 30⟩, ⟨false, some 100⟩]⟩ = 20 := by
  refine ⟨?_, ?_, ?_⟩
  · intro dao
    simp only [computeDaoProgress, specDaoProgress, foldl_progress_eq_sum,
      zero_add]
  · intro dao h
    simp only [computeDaoProgress, h]
    rfl
  · have hfil :
        (Dao.mk [⟨true, some 10⟩, ⟨true, some 30⟩, ⟨false, some 100⟩]
          |>.tasks.filter (fun t => t.isApplicable)) =
          [⟨true, some 10⟩, ⟨true, some 30⟩] := rfl
    simp only [computeDaoProgress, hfil]
    norm_num [List.foldl, jsRound]

/-- Witness for C5: a record with no applicable task has progress 0. -/
theorem computeDaoProgress_spec_witness :
    computeDaoProgress ⟨[⟨false, some 100⟩]⟩ = 0 :=
  computeDaoProgress_spec.2.1 ⟨[⟨false, some 100⟩]⟩ (by decide)

/-! ### Auto-user audit ring buffer (`autoUserAudit`) -/

/-- Audit actions of the auto-user audit store. -/
inductive AuditAction
  | created
  | reactivated
  | alreadyActive
  | error
  deriving DecidableEq, Repr, Inhabited

/-- `maskEmail`: a falsy input (`null`/`undefined`/`""`) yields the
constant `"***@***"`; otherwise the trimmed string has its leading run
of non-`@` characters replaced by `"***"` (`s.replace(/^[^@]+/, "***")`;
when that run is empty — empty trim or a leading `@` — the regex does
not match and the trimmed string is returned unchanged). -/
def maskEmail (e : Option String) : String :=
  match e with
  | none => "***@***"
  | some s =>
    if s = "" then "***@***"
    else
      let cs := (jsTrim s).data
      if (cs.takeWhile (fun c => c != '@')).isEmpty then jsTrim s
      else "***" ++ String.mk (cs.dropWhile (fun c => c != '@'))

/-- JS `x || null`: the empty string is falsy and becomes `null`. -/
def jsOrNull (o : Option String) : Option String :=
  match o with
  | some "" => none
  | x => x

/-- A stored auto-user audit entry. -/
structure AutoUserAuditEntry where
  ts : String
  action : AuditAction
  emailMasked : String
  daoId : Option String
  memberName : Option String
  message : Option String
  deriving DecidableEq, Repr, Inhabited

/-- The caller-supplied payload of `recordAutoUserEvent`. -/
structure AutoUserEventInput where
  action : AuditAction
  email : Option String
  daoId : Option String
  memberName : Option String
  message : Option String
  deriving DecidableEq, Repr

/-- `recordAutoUserEvent`: build the entry (masking the email), unshift
it onto the store and truncate the store to 200 entries. -/
def recordAutoUserEvent (entry : AutoUserEventInput) (ts : String)
    (store : List AutoUserAuditEntry) : List AutoUserAuditEntry :=
  let r : AutoUserAuditEntry :=
    { ts := ts
      action := entry.action
      emailMasked := maskEmail entry.email
      daoId := jsOrNull entry.daoId
      memberName := jsOrNull entry.memberName
      message := jsOrNull entry.message }
  (r :: store).take 200

/-- Run a sequence of `recordAutoUserEvent` calls (each paired with its
clock reading) against a store. -/
def runAudit (events : List (AutoUserEventInput × String))
    (store : List AutoUserAuditEntry) : List AutoUserAuditEntry :=
  events.foldl (fun st e => recordAutoUserEvent e.1 e.2 st) store

/-- Every character of `m` before its first `@` is the mask character. -/
def starsBeforeAt (m : String) : Bool :=
  (m.data.takeWhile (fun c => c != '@')).all (fun c => c == '*')

theorem takeWhile_dropWhile_nil {p : Char → Bool} (l : List Char) :
    (l.dropWhile p).takeWhile p = [] := by
  induction l with
  | nil => rfl
  | cons a t ih =>
    by_cases hp : p a
    · rw [List.dropWhile_cons_of_pos hp]
      exact ih
    · rw [List.dropWhile_cons_of_neg hp, List.takeWhile_cons_of_neg hp]

/-- `maskEmail` output has only `*` before its first `@`. -/
theorem maskEmail_stars (e : Option String) :
    starsBeforeAt (maskEmail e) = true := by
  cases e with
  | none => decide
  | some s =>
    by_cases hs : s = ""
    · simp only [maskEmail, hs, if_pos]
      decide
    · simp only [maskEmail, hs, if_neg, not_false_iff]
      by_cases he : (((jsTrim s).data).takeWhile (fun c => c != '@')).isEmpty
      · rw [if_pos he]
        have hnil : ((jsTrim s).data).takeWhile (fun c => c != '@') = [] :=
          List.isEmpty_iff.mp he
        simp [starsBeforeAt, hnil]
      · rw [if_neg he]
        simp only [starsBeforeAt]
        have hdata :
            ("***" ++ String.mk (((jsTrim s).data).dropWhile
              (fun c => c != '@'))).data =
              '*' :: '*' :: '*' ::
                ((jsTrim s).data).dropWhile (fun c => c != '@') := rfl
        rw [hdata]
        simp [List.takeWhile, takeWhile_dropWhile_nil]

/-- C9 counterexample: recording an event for the address
`"***@x.com"` stores `emailMasked = "***@x.com"` — the stored value
contains (indeed starts with) the raw local part `"***"` of the
supplied address, so the claim that no stored entry ever contains the
raw local part fails as stated. -/
theorem maskEmail_counterexample :
    (recordAutoUserEvent ⟨.created, some "***@x.com", none, none, none⟩
        "t0" []).map (fun e => e.emailMasked) = ["***@x.com"] ∧
    String.mk ("***@x.com".data.takeWhile (fun c => c != '@')) = "***" ∧
    List.IsInfix ("***".data) ("***@x.com".data) := by
  decide

/-- C9 amended: for every sequence of `recordAutoUserEvent` calls over a
store whose entries already satisfy it, every stored entry's
`emailMasked` has every character before its first `@` equal to `*`:
the local part is positionally replaced by the mask (only a local part
that is itself a run of asterisks can coincide with its masked form). -/
theorem audit_mask_invariant (events : List (AutoUserEventInput × String))
    (st : List AutoUserAuditEntry)
    (h0 : ∀ en ∈ st, starsBeforeAt en.emailMasked = true) :
    ∀ en ∈ runAudit events st, starsBeforeAt en.emailMasked = true := by
  induction events generalizing st with
  | nil => exact h0
  | cons ev rest ih =>
    intro en hen
    refine ih (recordAutoUserEvent ev.1 ev.2 st) ?_ en hen
    intro en' hen'
    have hsub := List.take_subset 200
      ({ ts := ev.2
         action := ev.1.action
         emailMasked := maskEmail ev.1.email
         daoId := jsOrNull ev.1.daoId
         memberName := jsOrNull ev.1.memberName
         message := jsOrNull ev.1.message } :: st) hen'
    rcases List.mem_cons.mp hsub with h | h
    · rw [h]
      exact maskEmail_stars ev.1.email
    · exact h0 en' h

/-- Witness for C9's amended invariant at a concrete event sequence. -/
theorem audit_mask_invariant_witness :
    starsBeforeAt
      ((runAudit [(⟨.created, some "john.doe@x.com", none, none, none⟩,
          "t0")] []).headD default).emailMasked = true := by
  have h := audit_mask_invariant
    [(⟨.created, some "john.doe@x.com", none, none, none⟩, "t0")] []
    (by intro en hen; simp at hen)
  exact h _ (by decide)

/-! ### Email-error notification cooldown
    (`services/notificationService.ts`) -/

/-- `EMAIL_ERROR_NOTIFY_INTERVAL_MS` with the environment default:
`max(5*60*1000, 10*60*1000)`. -/
def defaultEmailErrorInterval : ℤ :=
  max (5 * 60 * 1000) (10 * 60 * 1000)

/-- The module-level cooldown state:
`lastEmailErrorNotificationAt` / `lastEmailErrorNotificationCode`. -/
structure NotifySt where
  lastAt : ℤ
  lastCode : Option String
  deriving DecidableEq, Repr

/-- `shouldNotifyEmailError`: suppress when the code equals the single
remembered code and the interval has not elapsed; otherwise notify and
overwrite the remembered code/time. -/
def shouldNotifyEmailError (interval : ℤ) (code : String) (now : ℤ)
    (st : NotifySt) : Bool × NotifySt :=
  if st.lastCode = some code ∧ now - st.lastAt < interval then (false, st)
  else (true, { lastAt := now, lastCode := some code })

/-- Run `shouldNotifyEmailError` over a list of (code, Date.now()) failure
events, returning each call's decision. -/
def notifyRun (interval : ℤ) (st : NotifySt) :
    List (String × ℤ) → List Bool
  | [] => []
  | ev :: rest =>
    let r := shouldNotifyEmailError interval ev.1 ev.2 st
    r.1 :: notifyRun interval r.2 rest

theorem notifyRun_length (interval : ℤ) (st : NotifySt)
    (events : List (String × ℤ)) :
    (notifyRun interval st events).length = events.length := by
  induction events generalizing st with
  | nil => rfl
  | cons ev rest ih => simp [notifyRun, ih]

/-- C3 counterexample: with the default interval, the failure sequence
code "a" at t=0, code "b" at t=1, code "a" at t=2 produces three
notifications — the second "a" failure is 2ms after the first "a"
notification, well inside the cooldown window, yet it notifies again
because the interleaved "b" failure overwrote the single remembered
code.  The claim (one notification per distinct code per interval,
independent of interleaving) requires the third decision to be false. -/
theorem cooldown_counterexample :
    notifyRun defaultEmailErrorInterval ⟨0, none⟩
        [("a", 0), ("b", 1), ("a", 2)] = [true, true, true] ∧
      (2 - 0 : ℤ) < defaultEmailErrorInterval := by
  decide

/-- When `shouldNotifyEmailError` notifies, the remembered state becomes
this call's code and time. -/
theorem shouldNotify_true_state {interval : ℤ} {code : String} {now : ℤ}
    {st : NotifySt}
    (h : (shouldNotifyEmailError interval code now st).1 = true) :
    (shouldNotifyEmailError interval code now st).2 =
      ⟨now, some code⟩ := by
  unfold shouldNotifyEmailError at h ⊢
  split at h
  · simp at h
  · rw [if_neg (by assumption)]

/-- A call repeating the remembered code inside the interval is
suppressed. -/
theorem shouldNotify_false_of {interval : ℤ} {code : String} {now : ℤ}
    {st : NotifySt} (h1 : st.lastCode = some code)
    (h2 : now - st.lastAt < interval) :
    (shouldNotifyEmailError interval code now st).1 = false := by
  unfold shouldNotifyEmailError
  rw [if_pos ⟨h1, h2⟩]

/-- C3 amended: the cooldown suppresses only consecutive repeats — if
call k notifies and call k+1 carries the same code less than the
interval after call k, then call k+1 is suppressed.  (A failure with a
different code in between overwrites the single remembered code, so the
guarantee does not extend across interleaved codes.) -/
theorem cooldown_consecutive (interval : ℤ) (st : NotifySt)
    (events : List (String × ℤ)) (k : Nat)
    (hk : k + 1 < events.length)
    (htrue : (notifyRun interval st events).getD k false = true)
    (hcode : (events.getD k ("", 0)).1 = (events.getD (k + 1) ("", 0)).1)
    (hwithin :
      (events.getD (k + 1) ("", 0)).2 - (events.getD k ("", 0)).2 <
        interval) :
    (notifyRun interval st events).getD (k + 1) false = false := by
  induction events generalizing st k with
  | nil => simp at hk
  | cons ev rest ih =>
    cases k with
    | zero =>
      cases rest with
      | nil => simp at hk
      | cons ev' rest' =>
        simp only [notifyRun, List.getD_cons_zero,
          List.getD_cons_succ] at htrue hcode hwithin ⊢
        rw [shouldNotify_true_state htrue]
        exact shouldNotify_false_of (by rw [hcode]) hwithin
    | succ k' =>
      simp only [notifyRun, List.getD_cons_succ,
        List.length_cons] at htrue hcode hwithin hk ⊢
      exact ih _ k' (by omega) htrue hcode hwithin

/-- Witness for C3's amended statement: two consecutive same-code
failures 1ms apart — the first notifies, the second is suppressed. -/
theorem cooldown_consecutive_witness :
    (notifyRun 600000 ⟨0, none⟩ [("a", 0), ("a", 1)]).getD 1 false =
      false :=
  cooldown_consecutive 600000 ⟨0, none⟩ [("a", 0), ("a", 1)] 0
    (by decide) (by decide) (by decide) (by decide)

/-! ### Notification store (`services/notificationService.ts`) -/

/-- The closed enumeration of notification types. -/
inductive NotificationType
  | role_update
  | task_notification
  | dao_created
  | dao_updated
  | dao_deleted
  | user_created
  | system
  deriving DecidableEq, Repr

/-- `recipients`: the sentinel `"all"` or an explicit id list. -/
inductive Recipients
  | all
  | list (ids : List String)
  deriving DecidableEq, Repr

/-- A stored `ServerNotification`; `readBy` (a JS `Set`) is modelled as a
duplicate-free-by-construction list, `data` as an optional key/value
list. -/
structure ServerNotification where
  id : String
  type : NotificationType
  title : String
  message : String
  data : Option (List (String × String))
  recipients : Recipients
  readBy : List String
  createdAt : String
  deriving DecidableEq, Repr

/-- `isRecipient`: the notification is addressed to all, or the user id
is in the explicit recipient list. -/
def isRecipient (userId : String) (n : ServerNotification) : Bool :=
  match n.recipients with
  | .all => true
  | .list ids => ids.contains userId

/-- `Set.prototype.add`: insert the id unless already present. -/
def addReadBy (userId : String) (readBy : List String) : List String :=
  if readBy.contains userId then readBy else userId :: readBy

/-- `markRead`: find the first notification with the given id; return
false if absent or the user is not a recipient; otherwise add the user
to its `readBy` and return true.  The returned list is the store after
the call. -/
def markRead (userId notifId : String) :
    List ServerNotification → Bool × List ServerNotification
  | [] => (false, [])
  | n :: rest =>
    if n.id = notifId then
      if isRecipient userId n then
        (true, { n with readBy := addReadBy userId n.readBy } :: rest)
      else (false, n :: rest)
    else
      let r := markRead userId notifId rest
      (r.1, n :: r.2)

/-- `markAllRead`: walk the store, adding the user to `readBy` of every
visible notification not yet read by them, counting the changes. -/
def markAllRead (userId : String) :
    List ServerNotification → Nat × List ServerNotification
  | [] => (0, [])
  | n :: rest =>
    let r := markAllRead userId rest
    if isRecipient userId n && !(n.readBy.contains userId) then
      (r.1 + 1, { n with readBy := userId :: n.readBy } :: r.2)
    else (r.1, n :: r.2)

/-- The `markAllRead` per-notification condition: visible to the user
and not yet read by them. -/
def qualifiesUnread (userId : String) (n : ServerNotification) : Bool :=
  isRecipient userId n && !(n.readBy.contains userId)

theorem markAllRead_eq (u : String) (l : List ServerNotification) :
    markAllRead u l =
      (l.countP (qualifiesUnread u),
       l.map (fun n =>
         if qualifiesUnread u n then { n with readBy := u :: n.readBy }
         else n)) := by
  induction l with
  | nil => rfl
  | cons n rest ih =>
    simp only [markAllRead, ih, List.map_cons, List.countP_cons,
      qualifiesUnread]
    split_ifs with hc
    · rfl
    · simp

/-- After one `markAllRead` pass no notification still qualifies. -/
theorem qualifies_after_markAllRead (u : String) (n : ServerNotification) :
    qualifiesUnread u
      (if qualifiesUnread u n then { n with readBy := u :: n.readBy }
       else n) = false := by
  by_cases h : qualifiesUnread u n = true
  · rw [if_pos h]
    simp [qualifiesUnread]
  · simp only [Bool.not_eq_true] at h
    rw [if_neg (by simp [h])]
    exact h

/-- C7: whenever at least one notification visible to `u` is unread by
`u`, `markAllRead u` returns a positive count; the count is exactly the
number of visible-and-unread notifications; the new store marks exactly
those as read; and an immediately repeated call changes nothing and
returns 0. -/
theorem markAllRead_idem (u : String) (l : List ServerNotification)
    (h : ∃ n, n ∈ l ∧ qualifiesUnread u n = true) :
    0 < (markAllRead u l).1 ∧
    (markAllRead u l).1 = l.countP (qualifiesUnread u) ∧
    (markAllRead u l).2 =
      l.map (fun n =>
        if qualifiesUnread u n then { n with readBy := u :: n.readBy }
        else n) ∧
    markAllRead u (markAllRead u l).2 = (0, (markAllRead u l).2) := by
  have heq := markAllRead_eq u l
  refine ⟨?_, ?_, ?_, ?_⟩
  · rw [heq]
    rcases h with ⟨n, hn, hq⟩
    exact List.countP_pos_iff.mpr ⟨n, hn, hq⟩
  · rw [heq]
  · rw [heq]
  · have heq2 := markAllRead_eq u (markAllRead u l).2
    rw [heq2]
    have hcount :
        (markAllRead u l).2.countP (qualifiesUnread u) = 0 := by
      rw [heq]
      rw [List.countP_eq_zero]
      intro a ha
      rcases List.mem_map.mp ha with ⟨n, _, hn⟩
      rw [← hn]
      simp [qualifies_after_markAllRead]
    have hmap :
        (markAllRead u l).2.map (fun n =>
          if qualifiesUnread u n then { n with readBy := u :: n.readBy }
          else n) = (markAllRead u l).2 := by
      have hid : ∀ a ∈ (markAllRead u l).2,
          (if qualifiesUnread u a then
            { a with readBy := u :: a.readBy } else a) = a := by
        intro a ha
        rw [heq] at ha
        rcases List.mem_map.mp ha with ⟨n, _, hn⟩
        have hfa := qualifies_after_markAllRead u n
        rw [hn] at hfa
        rw [hfa]
        simp
      calc (markAllRead u l).2.map _ = (markAllRead u l).2.map id :=
            List.map_congr_left hid
        _ = (markAllRead u l).2 := List.map_id _
    rw [hcount, hmap]

/-- A concrete demo notification for witnesses. -/
def demoNotif : ServerNotification :=
  { id := "n1"
    type := .system
    title := "t"
    message := "m"
    data := none
    recipients := .all
    readBy := []
    createdAt := "2025-01-01T00:00:00.000Z" }

/-- Witness for C7 at a one-element store with an unread broadcast. -/
theorem markAllRead_idem_witness :
    0 < (markAllRead "u" [demoNotif]).1 ∧
    markAllRead "u" (markAllRead "u" [demoNotif]).2 =
      (0, (markAllRead "u" [demoNotif]).2) := by
  have h := markAllRead_idem "u" [demoNotif]
    ⟨demoNotif, List.mem_cons_self _ _, by decide⟩
  exact ⟨h.1, h.2.2.2⟩

/-- C10: `markRead u nid` preserves the store's length and order; when it
returns false the store is unchanged; when it returns true the store is
unchanged except that the first notification whose id is `nid` — which
the user can see — has `u` added to its `readBy`, all its other fields
and all other notifications being untouched. -/
theorem markRead_frame (u nid : String) (l : List ServerNotification) :
    (markRead u nid l).2.length = l.length ∧
    ((markRead u nid l).1 = false → (markRead u nid l).2 = l) ∧
    ((markRead u nid l).1 = true →
      ∃ pre n post, l = pre ++ n :: post ∧
        (∀ m ∈ pre, m.id ≠ nid) ∧
        n.id = nid ∧ isRecipient u n = true ∧
        (markRead u nid l).2 =
          pre ++ { n with readBy := addReadBy u n.readBy } :: post) := by
  induction l with
  | nil =>
    refine ⟨rfl, fun _ => rfl, fun h => ?_⟩
    simp [markRead] at h
  | cons n rest ih =>
    by_cases hid : n.id = nid
    · by_cases hrec : isRecipient u n = true
      · simp only [markRead, if_pos hid, if_pos hrec]
        refine ⟨by simp, by simp, fun _ => ?_⟩
        exact ⟨[], n, rest, rfl,
          fun m hm => absurd hm (List.not_mem_nil m), hid, hrec, rfl⟩
      · simp only [markRead, if_pos hid, if_neg hrec]
        exact ⟨by simp, by simp, by simp⟩
    · simp only [markRead, if_neg hid]
      refine ⟨by simp [ih.1], fun h => ?_, fun h => ?_⟩
      · rw [ih.2.1 h]
      · rcases ih.2.2 h with ⟨pre, m, post, hsplit, hpre, hm, hmrec, hres⟩
        refine ⟨n :: pre, m, post, by rw [hsplit]; rfl, ?_, hm, hmrec, ?_⟩
        · intro x hx
          rcases List.mem_cons.mp hx with hx | hx
          · exact hx ▸ hid
          · exact hpre x hx
        · rw [hres]
          rfl

/-- Witness for C10: an id absent from the store returns false and
leaves the store unchanged. -/
theorem markRead_frame_witness :
    (markRead "u" "zzz" [demoNotif]).2 = [demoNotif] :=
  (markRead_frame "u" "zzz" [demoNotif]).2.1 (by decide)

/-! ### Delivery engine (`services/txEmail.ts`)

The engine's external effects are parameterised: `resolve` models
`getTransport` (excluded-host list ↦ the host of the returned transport,
`none` when no transport is available), and `sendResult k` models the
outcome of the k-th `transport.sendMail` call of a run.  `sleep` calls
are dropped.  `enqueueEmailJob` + `processQueue` on an initially empty
queue process the single job synchronously from the caller's point of
view (the caller awaits the job promise), so `sendEmail` is modelled as
the composition enqueue → `deliverWithRetry` → persisted-job removal,
with queue operations recorded as events.  Apostrophes in French
message literals are dropped. -/

/-- Character-list: does `needle` start `hay`? -/
def listStartsWith : List Char → List Char → Bool
  | [], _ => true
  | _ :: _, [] => false
  | a :: as, b :: bs => a == b && listStartsWith as bs

/-- Character-list substring test (regex alternative matching). -/
def hasSubstr (needle : List Char) : List Char → Bool
  | [] => needle.isEmpty
  | c :: rest => listStartsWith needle (c :: rest) || hasSubstr needle rest

/-- Case-insensitive test whether any of `alts` occurs in `message`
(models an `/a|b|c/i.test(message)` regex, the alternatives containing
no metacharacters). -/
def regexTestCI (alts : List String) (message : String) : Bool :=
  alts.any (fun p => hasSubstr p.data (jsToLower message).data)

/-- `/^4\d\d$/.test s`. -/
def isSmtp4xx (s : String) : Bool :=
  match s.data with
  | [a, b, c] => a == '4' && b.isDigit && c.isDigit
  | _ => false

/-- The temporary SMTP error codes of `isTemporarySmtpError`. -/
def temporarySmtpCodes : List String :=
  ["ETIMEDOUT", "ESOCKETTIMEDOUT", "ECONNRESET", "ECONNREFUSED",
    "ECONNABORTED", "EPIPE", "EHOSTUNREACH", "ENETUNREACH", "EAI_AGAIN",
    "ETIMEOUT", "ETEMPFAIL", "ECONNECTION"]

/-- `isTemporarySmtpError` from `services/txEmail.ts`. -/
def isTemporarySmtpError (code message : String) : Bool :=
  let normalizedCode := jsToUpper (jsTrim code)
  if normalizedCode = "" then
    regexTestCI ["timeout", "temporar", "retry"] message
  else if temporarySmtpCodes.contains normalizedCode then true
  else if isSmtp4xx normalizedCode then true
  else if normalizedCode = "421" then true
  else
    regexTestCI ["temporary", "timeout", "try again", "later", "rate limit"]
      message

/-- One failed batch of an `EmailDeliverySummary`. -/
structure EmailBatchFailure where
  code : String
  message : String
  recipients : List String
  deriving DecidableEq, Repr

/-- The Delivery Summary of one job attempt set. -/
structure EmailDeliverySummary where
  subject : String
  attempted : Nat
  sent : Nat
  failed : Nat
  errors : List EmailBatchFailure
  deriving DecidableEq, Repr

/-- The `EmailSendError` raised by the engine. -/
structure EmailSendError where
  message : String
  code : Option String
  permanent : Bool
  summary : Option EmailDeliverySummary
  deriving DecidableEq, Repr

/-- Outcome of one `transport.sendMail` invocation (oracle value). -/
inductive SendAttemptResult
  | ok
  | err (code message : String)
  deriving DecidableEq, Repr

/-- Engine configuration plus the external-world oracles. -/
structure EmailCfg where
  batchSize : Nat
  maxRetry : Nat
  dryRun : Bool
  resolve : List String → Option String
  sendResult : Nat → SendAttemptResult

/-- The mutable state of `deliverEmailJob`'s batching loop. -/
structure LoopSt where
  index : Nat
  host : String
  excluded : List String
  sent : Nat
  failed : Nat
  errors : List EmailBatchFailure
  hasErrors : Bool
  hasPermanentFailure : Bool
  calls : Nat
  deriving DecidableEq, Repr

/-- JS `s || d` for strings. -/
def jsOr (s d : String) : String :=
  if s = "" then d else s

/-- The batching loop of `deliverEmailJob` (run on explicit fuel; the
source retries a temporarily-failing batch indefinitely).  On success
the index advances; on a temporary failure the current host is excluded
and a fallback transport is tried, the same batch being retried either
way; on a permanent failure the batch is recorded as failed and the
index advances past it. -/
def deliverLoop (cfg : EmailCfg) (recipients : List String) :
    Nat → LoopSt → Option LoopSt
  | 0, _ => none
  | fuel + 1, st =>
    if st.index < recipients.length then
      let eff := min cfg.batchSize (recipients.length - st.index)
      let batch := (recipients.drop st.index).take eff
      match cfg.sendResult st.calls with
      | .ok =>
        deliverLoop cfg recipients fuel
          { st with
            sent := st.sent + batch.length
            calls := st.calls + 1
            index := st.index + eff }
      | .err code msg =>
        let temporary := isTemporarySmtpError code msg
        let st' : LoopSt :=
          { st with
            failed := st.failed + batch.length
            errors := st.errors ++ [⟨code, msg, batch⟩]
            hasErrors := true
            hasPermanentFailure := st.hasPermanentFailure || !temporary
            calls := st.calls + 1 }
        if temporary then
          let excluded' := st'.excluded ++ [st.host]
          match cfg.resolve excluded' with
          | some h =>
            if h ≠ st.host then
              deliverLoop cfg recipients fuel
                { st' with excluded := excluded', host := h }
            else
              deliverLoop cfg recipients fuel { st' with excluded := excluded' }
          | none =>
            deliverLoop cfg recipients fuel { st' with excluded := excluded' }
        else
          deliverLoop cfg recipients fuel { st' with index := st.index + eff }
    else some st

/-- Result of one `deliverEmailJob` attempt: a resolved summary or a
thrown `EmailSendError`. -/
inductive DeliverOutcome
  | resolved (s : EmailDeliverySummary)
  | thrown (e : EmailSendError)
  deriving DecidableEq, Repr

/-- `deliverEmailJob`: dry-run short-circuit; `transport_unavailable`
thrown (permanent, before any batch) when no transport resolves; else
the batching loop, after which any recorded batch error makes the whole
attempt throw an `EmailSendError` carrying the summary — even when
`sent` equals `attempted`.  The second component counts `sendMail`
invocations so far. -/
def deliverEmailJob (cfg : EmailCfg) (fuel : Nat) (calls0 : Nat)
    (recipients : List String) (subject : String) :
    Option (DeliverOutcome × Nat) :=
  let base : EmailDeliverySummary :=
    { subject := subject, attempted := recipients.length, sent := 0,
      failed := 0, errors := [] }
  if cfg.dryRun then
    some (.resolved { base with sent := recipients.length }, calls0)
  else
    match cfg.resolve [] with
    | none =>
      let message := "SMTP transport unavailable"
      some (.thrown
        { message := message, code := none, permanent := true,
          summary := some
            { base with
              failed := recipients.length
              errors := [⟨"transport_unavailable", message, recipients⟩] } },
        calls0)
    | some host =>
      match deliverLoop cfg recipients fuel
          ⟨0, host, [], 0, 0, [], false, false, calls0⟩ with
      | none => none
      | some st =>
        let summary : EmailDeliverySummary :=
          { subject := subject, attempted := recipients.length,
            sent := st.sent, failed := st.failed, errors := st.errors }
        if st.hasErrors && !st.errors.isEmpty then
          let primary := st.errors.head?
          some (.thrown
            { message :=
                jsOr ((primary.map (fun p => p.message)).getD "")
                  "Echec partiel de l envoi SMTP"
              code := primary.map (fun p => p.code)
              permanent := st.hasPermanentFailure
              summary := some summary }, st.calls)
        else some (.resolved summary, st.calls)

/-- `deliverWithRetry`: retry the whole job while the attempt number is
below `MAX_RETRY` and the thrown error is not permanent.  The recursion
is bounded structurally by `bound`; `deliverWithRetry` passes
`maxRetry + 1`, which the guard `attempt < maxRetry` (with `attempt`
growing by one per step) never exhausts, so the `bound = 0` arm is
unreachable. -/
def deliverWithRetryAux (cfg : EmailCfg) (fuel : Nat)
    (recipients : List String) (subject : String) :
    Nat → Nat → Nat → Option (DeliverOutcome × Nat)
  | 0, _, _ => none
  | bound + 1, attempt, calls =>
    match deliverEmailJob cfg fuel calls recipients subject with
    | none => none
    | some (.resolved s, c) => some (.resolved s, c)
    | some (.thrown e, c) =>
      if attempt < cfg.maxRetry ∧ e.permanent = false then
        deliverWithRetryAux cfg fuel recipients subject bound (attempt + 1) c
      else some (.thrown e, c)

/-- `deliverWithRetry(job, attempt)` with the structural bound
instantiated. -/
def deliverWithRetry (cfg : EmailCfg) (fuel : Nat)
    (recipients : List String) (subject : String) (attempt : Nat)
    (calls : Nat) : Option (DeliverOutcome × Nat) :=
  deliverWithRetryAux cfg fuel recipients subject
    (cfg.maxRetry + 1) attempt calls

/-- What `sendEmail` returns to its caller. -/
inductive SendOutcome
  | ok
  | raised (e : EmailSendError)
  deriving DecidableEq, Repr

/-- Queue-state events of a `sendEmail` run: the durable-snapshot append
(`addPersistedJob`), the in-memory enqueue, and the snapshot removal
after the job settles. -/
inductive EmailEvent
  | persistAdd (recipients : List String)
  | enqueuedMem (recipients : List String)
  | persistRemove
  deriving DecidableEq, Repr

/-- A completed `sendEmail` run: caller-visible outcome, queue events in
order, and the total number of `sendMail` invocations. -/
structure SendRunResult where
  outcome : SendOutcome
  events : List EmailEvent
  calls : Nat
  deriving DecidableEq, Repr

/-- `(subject && subject.trim()) || "Gestion des DAOs 2SND"`. -/
def smtpSubjectOf (subject : String) : String :=
  if jsTrim subject = "" then "Gestion des DAOs 2SND" else jsTrim subject

/-- `sendEmail`: partition and deduplicate the recipients; with none
valid, return successfully with no queue event; otherwise enqueue (both
queues), run `deliverWithRetry` from attempt 1, remove the persisted
job, and translate the delivery result: a summary with `failed = 0`
returns silently; `sent = 0` raises from the first error; a partial
summary (both positive) falls through and returns without raising; a
thrown `EmailSendError` is re-raised with a default summary attached if
it carried none. -/
def sendEmail (cfg : EmailCfg) (fuel : Nat) (toRaw : List (Option String))
    (subject _body : String) : Option SendRunResult :=
  let recipients := dedupFirst (partitionEmails toRaw).1
  if recipients.isEmpty then some ⟨.ok, [], 0⟩
  else
    let smtpSubject := smtpSubjectOf subject
    match deliverWithRetry cfg fuel recipients smtpSubject 1 0 with
    | none => none
    | some (res, calls) =>
      let events : List EmailEvent :=
        [.persistAdd recipients, .enqueuedMem recipients, .persistRemove]
      match res with
      | .resolved summary =>
        if summary.failed = 0 then some ⟨.ok, events, calls⟩
        else if summary.sent = 0 then
          let firstError := summary.errors.head?
          some ⟨.raised
            { message :=
                jsOr ((firstError.map (fun p => p.message)).getD "")
                  "SMTP send failed"
              code := firstError.map (fun p => p.code)
              permanent :=
                (firstError.map (fun p => p.code)).getD "" ==
                  "transport_unavailable"
              summary := some summary }, events, calls⟩
        else some ⟨.ok, events, calls⟩
      | .thrown e =>
        let defSummary : EmailDeliverySummary :=
          { subject := smtpSubject, attempted := recipients.length,
            sent := 0, failed := recipients.length, errors := [] }
        let e' :=
          if e.summary.isSome then e
          else { e with summary := some defSummary }
        some ⟨.raised e', events, calls⟩

/-- The batching loop maintains: no recorded failure while `hasErrors`
is false, and a non-empty error list once it is true. -/
theorem deliverLoop_inv (cfg : EmailCfg) (recipients : List String) :
    ∀ fuel st st', deliverLoop cfg recipients fuel st = some st' →
      ((st.hasErrors = false → st.failed = 0) ∧
        (st.hasErrors = true → st.errors ≠ [])) →
      ((st'.hasErrors = false → st'.failed = 0) ∧
        (st'.hasErrors = true → st'.errors ≠ [])) := by
  intro fuel
  induction fuel with
  | zero =>
    intro st st' h _
    simp [deliverLoop] at h
  | succ fuel ih =>
    intro st st' h hinv
    rw [deliverLoop] at h
    split at h
    · split at h
      · exact ih _ _ h hinv
      · dsimp only at h
        split at h
        · split at h
          · split at h
            · exact ih _ _ h ⟨(fun hh => nomatch hh), fun _ => by simp⟩
            · exact ih _ _ h ⟨(fun hh => nomatch hh), fun _ => by simp⟩
          · exact ih _ _ h ⟨(fun hh => nomatch hh), fun _ => by simp⟩
        · exact ih _ _ h ⟨(fun hh => nomatch hh), fun _ => by simp⟩
    · injection h with h
      rw [← h]
      exact hinv

/-- A `deliverEmailJob` attempt only resolves (instead of throwing) when
its summary records no failed batch. -/
theorem deliverEmailJob_resolved {cfg : EmailCfg} {fuel calls0 : Nat}
    {recipients : List String} {subject : String}
    {s : EmailDeliverySummary} {c : Nat}
    (h : deliverEmailJob cfg fuel calls0 recipients subject =
      some (.resolved s, c)) : s.failed = 0 := by
  unfold deliverEmailJob at h
  split at h
  · simp only [Option.some.injEq, Prod.mk.injEq,
      DeliverOutcome.resolved.injEq] at h
    rw [← h.1]
  · split at h
    · simp at h
    · split at h
      · simp at h
      · rename_i host st hloop
        have hfin := deliverLoop_inv cfg recipients fuel _ _ hloop
          ⟨(fun _ => rfl), fun hh => nomatch hh⟩
        split at h
        · simp at h
        · rename_i hcond
          simp only [Option.some.injEq, Prod.mk.injEq,
            DeliverOutcome.resolved.injEq] at h
          rw [← h.1]
          by_cases hE : st.hasErrors = true
          · have := hfin.2 hE
            simp [hE, this] at hcond
          · simp only [Bool.not_eq_true] at hE
            exact hfin.1 hE

/-- `deliverWithRetry` only resolves with a summary recording no failed
batch. -/
theorem deliverWithRetryAux_resolved {cfg : EmailCfg} {fuel : Nat}
    {recipients : List String} {subject : String} :
    ∀ bound attempt calls {s : EmailDeliverySummary} {c : Nat},
      deliverWithRetryAux cfg fuel recipients subject bound attempt calls =
        some (.resolved s, c) → s.failed = 0 := by
  intro bound
  induction bound with
  | zero =>
    intro attempt calls s c h
    simp [deliverWithRetryAux] at h
  | succ bound ih =>
    intro attempt calls s c h
    rw [deliverWithRetryAux] at h
    split at h
    · simp at h
    · rename_i s' c' heq
      simp only [Option.some.injEq, Prod.mk.injEq,
        DeliverOutcome.resolved.injEq] at h
      rw [← h.1]
      exact deliverEmailJob_resolved heq
    · split at h
      · exact ih _ _ h
      · simp at h

theorem isEmpty_false_of_ne {l : List String} (hn : l ≠ []) :
    l.isEmpty = false := by
  cases l with
  | nil => exact absurd rfl hn
  | cons a t => rfl

/-- Every completed `sendEmail` run either enqueued nothing (events
empty) or enqueued exactly one job with the deduplicated valid
recipients, recorded as the three queue events. -/
theorem sendEmail_events_cases {cfg : EmailCfg} {fuel : Nat}
    {toRaw : List (Option String)} {subject body : String}
    {res : SendRunResult}
    (h : sendEmail cfg fuel toRaw subject body = some res) :
    res.events = [] ∨
      res.events = [.persistAdd (dedupFirst (partitionEmails toRaw).1),
        .enqueuedMem (dedupFirst (partitionEmails toRaw).1),
        .persistRemove] := by
  unfold sendEmail at h
  dsimp only at h
  split at h
  · left
    injection h with h
    rw [← h]
  · split at h
    · exact absurd h (by simp)
    · split at h
      · split at h
        · right
          injection h with h
          rw [← h]
        · split at h
          · right
            injection h with h
            rw [← h]
          · right
            injection h with h
            rw [← h]
      · right
        injection h with h
        rw [← h]

/-- First job attempt of the C2 scenario, loop level: the single batch
fails once with a temporary error (the fallback resolver returns the
same host) and succeeds on the in-loop retry; the loop state records
the whole batch both as failed and as sent, with 2 `sendMail` calls. -/
theorem c2_loop_fail_ok (cfg : EmailCfg) (recipients : List String)
    (host code msg : String) (f c0 : Nat)
    (hn : recipients ≠ []) (hB : recipients.length ≤ cfg.batchSize)
    (hres : ∀ l, cfg.resolve l = some host)
    (h0 : cfg.sendResult c0 = .err code msg)
    (htemp : isTemporarySmtpError code msg = true)
    (h1 : cfg.sendResult (c0 + 1) = .ok) :
    deliverLoop cfg recipients (f + 3)
        ⟨0, host, [], 0, 0, [], false, false, c0⟩ =
      some ⟨recipients.length, host, [host], recipients.length,
        recipients.length, [⟨code, msg, recipients⟩], true, false,
        c0 + 2⟩ := by
  have hlen : 0 < recipients.length := List.length_pos.mpr hn
  have heff : min cfg.batchSize recipients.length = recipients.length :=
    Nat.min_eq_right hB
  rw [deliverLoop]
  simp only [hlen, if_true, heff, Nat.sub_zero, List.drop_zero,
    List.take_length, h0, htemp, List.nil_append, hres, ne_eq,
    not_true_eq_false, if_false, Nat.zero_add, List.append_nil,
    Bool.not_true, Bool.or_false, ite_true, ite_false, reduceIte]
  rw [deliverLoop]
  simp only [hlen, if_true, heff, Nat.sub_zero, List.drop_zero,
    List.take_length, h1, Nat.zero_add, ite_true, reduceIte]
  rw [deliverLoop]
  simp only [lt_self_iff_false, if_false, ite_false, reduceIte,
    Option.some.injEq]

/-- A clean single-batch attempt: one successful `sendMail` call. -/
theorem c2_loop_ok (cfg : EmailCfg) (recipients : List String)
    (host : String) (f c0 : Nat)
    (hn : recipients ≠ []) (hB : recipients.length ≤ cfg.batchSize)
    (h0 : cfg.sendResult c0 = .ok) :
    deliverLoop cfg recipients (f + 3)
        ⟨0, host, [], 0, 0, [], false, false, c0⟩ =
      some ⟨recipients.length, host, [], recipients.length, 0, [], false,
        false, c0 + 1⟩ := by
  have hlen : 0 < recipients.length := List.length_pos.mpr hn
  have heff : min cfg.batchSize recipients.length = recipients.length :=
    Nat.min_eq_right hB
  rw [deliverLoop]
  simp only [hlen, if_true, heff, Nat.sub_zero, List.drop_zero,
    List.take_length, h0, Nat.zero_add, ite_true, reduceIte]
  rw [deliverLoop]
  simp only [lt_self_iff_false, if_false, ite_false, reduceIte]

/-- First job attempt of the C2 scenario: although the in-loop retry
delivered the whole batch (`sent = attempted`), the attempt still
throws a non-permanent `EmailSendError` whose summary double-counts the
batch as failed. -/
theorem c2_job_fail (cfg : EmailCfg) (recipients : List String)
    (host code msg subject : String) (f c0 : Nat)
    (hn : recipients ≠ []) (hB : recipients.length ≤ cfg.batchSize)
    (hdry : cfg.dryRun = false)
    (hres : ∀ l, cfg.resolve l = some host)
    (h0 : cfg.sendResult c0 = .err code msg)
    (htemp : isTemporarySmtpError code msg = true)
    (h1 : cfg.sendResult (c0 + 1) = .ok)
    (hmsg : msg ≠ "") :
    deliverEmailJob cfg (f + 3) c0 recipients subject =
      some (.thrown
        { message := msg, code := some code, permanent := false,
          summary := some
            { subject := subject, attempted := recipients.length,
              sent := recipients.length, failed := recipients.length,
              errors := [⟨code, msg, recipients⟩] } }, c0 + 2) := by
  unfold deliverEmailJob
  rw [if_neg (by simp [hdry]), hres]
  dsimp only
  rw [c2_loop_fail_ok cfg recipients host code msg f c0 hn hB hres h0 htemp
    h1]
  simp [jsOr, hmsg]

/-- A clean job attempt resolves with `sent = attempted`, `failed = 0`
after one `sendMail` call. -/
theorem c2_job_ok (cfg : EmailCfg) (recipients : List String)
    (host subject : String) (f c0 : Nat)
    (hn : recipients ≠ []) (hB : recipients.length ≤ cfg.batchSize)
    (hdry : cfg.dryRun = false)
    (hres : ∀ l, cfg.resolve l = some host)
    (h0 : cfg.sendResult c0 = .ok) :
    deliverEmailJob cfg (f + 3) c0 recipients subject =
      some (.resolved
        { subject := subject, attempted := recipients.length,
          sent := recipients.length, failed := 0, errors := [] },
        c0 + 1) := by
  unfold deliverEmailJob
  rw [if_neg (by simp [hdry]), hres]
  dsimp only
  rw [c2_loop_ok cfg recipients host f c0 hn hB h0]
  simp

/-- Engine configuration of the C1 counterexample: single provider, the
first batch send succeeds and every later one fails permanently. -/
def cfgPartialFail : EmailCfg :=
  { batchSize := 1, maxRetry := 3, dryRun := false,
    resolve := fun _ => some "h",
    sendResult := fun k =>
      if k = 0 then .ok else .err "550" "mailbox rejected" }

/-- Engine configuration of the C2 scenario: single provider, the first
send fails with the temporary SMTP code 421 and every later one
succeeds. -/
def cfgTempRetry : EmailCfg :=
  { batchSize := 25, maxRetry := 3, dryRun := false,
    resolve := fun _ => some "h",
    sendResult := fun k =>
      if k = 0 then .err "421" "rate limited" else .ok }

/-- Engine configuration with no resolvable transport. -/
def cfgNoTransport : EmailCfg :=
  { batchSize := 25, maxRetry := 3, dryRun := false,
    resolve := fun _ => none, sendResult := fun _ => .ok }

/-- Engine configuration in dry-run mode. -/
def cfgDry : EmailCfg :=
  { batchSize := 1, maxRetry := 3, dryRun := true,
    resolve := fun _ => none, sendResult := fun _ => .ok }

/-- C1 counterexample: a run in which one recipient was sent and one
batch failed permanently — the final Delivery Summary has `sent = 1 > 0`
and `failed = 1 > 0`, yet `sendEmail` raises (the `EmailSendError`
carries that partial summary).  The claim states such a call does not
raise. -/
theorem sendEmail_partial_counterexample :
    ((sendEmail cfgPartialFail 20 [some "a@x.com", some "b@x.com"] "s"
        "body").map (fun r => r.outcome)) =
      some (.raised
        { message := "mailbox rejected", code := some "550",
          permanent := true,
          summary := some ({ subject := "s", attempted := 2, sent := 1,
                             failed := 1,
                             errors := [{ code := "550",
                                          message := "mailbox rejected",
                                          recipients := ["b@x.com"] }] } :
                            EmailDeliverySummary) }) := by
  decide

/-- C1 amended: a partial batch failure is not communicated via a
resolved Delivery Summary — any summary the engine resolves without
raising has `failed = 0`, and whenever the job settles by throwing, the
`sendEmail` call raises that same error, which carries the (possibly
partial) summary.  So `send` raises whenever any batch failure remains
recorded, even with `sent > 0`. -/
theorem sendEmail_partial_raises :
    (∀ (cfg : EmailCfg) (fuel : Nat) (recipients : List String)
        (subject : String) (attempt calls : Nat)
        (s : EmailDeliverySummary) (c : Nat),
      deliverWithRetry cfg fuel recipients subject attempt calls =
        some (.resolved s, c) → s.failed = 0) ∧
    (∀ (cfg : EmailCfg) (fuel : Nat) (toRaw : List (Option String))
        (subject body : String) (e : EmailSendError) (c : Nat),
      dedupFirst (partitionEmails toRaw).1 ≠ [] →
      deliverWithRetry cfg fuel (dedupFirst (partitionEmails toRaw).1)
        (smtpSubjectOf subject) 1 0 = some (.thrown e, c) →
      e.summary.isSome = true →
      sendEmail cfg fuel toRaw subject body =
        some ⟨.raised e,
          [.persistAdd (dedupFirst (partitionEmails toRaw).1),
           .enqueuedMem (dedupFirst (partitionEmails toRaw).1),
           .persistRemove], c⟩) := by
  constructor
  · intro cfg fuel recipients subject attempt calls s c h
    unfold deliverWithRetry at h
    exact deliverWithRetryAux_resolved _ _ _ h
  · intro cfg fuel toRaw subject body e c hn hd hs
    unfold sendEmail
    dsimp only
    rw [if_neg (by simp [isEmpty_false_of_ne hn]), hd]
    dsimp only
    rw [if_pos hs]

/-- Witness for C1's amended statement: a dry-run delivery resolves and
its summary indeed has `failed = 0`. -/
theorem sendEmail_partial_raises_witness :
    (⟨"s", 1, 1, 0, []⟩ : EmailDeliverySummary).failed = 0 :=
  sendEmail_partial_raises.1 cfgDry 1 ["a@x.com"] "s" 1 0
    ⟨"s", 1, 1, 0, []⟩ 0 (by decide)

/-- C2 counterexample: single batch, transport fails temporarily on the
first attempt and succeeds on the second — the run completes
successfully, but the transport send is invoked 3 times, not the 2 the
claim requires (the whole job is re-sent because the first attempt
still throws). -/
theorem retry_invocations_counterexample :
    sendEmail cfgTempRetry 20 [some "a@x.com"] "s" "body" =
      some ⟨.ok, [.persistAdd ["a@x.com"], .enqueuedMem ["a@x.com"],
        .persistRemove], 3⟩ := by
  decide

/-- C2 amended: in the temporary-failure-then-success scenario over a
single batch, the first job attempt already delivers to the whole batch
on its in-loop retry, yet its summary records `failed = attempted`
(every failed try is counted, never undone) and the attempt throws a
non-permanent error; the job-level retry then re-sends the whole batch,
so the final resolved Delivery Summary has `sent = attempted` and
`failed = 0` but the transport send is invoked exactly 3 times (and
every recipient receives the email twice). -/
theorem retry_temp_then_success (cfg : EmailCfg)
    (recipients : List String) (host code msg subject : String) (f : Nat)
    (hn : recipients ≠ []) (hB : recipients.length ≤ cfg.batchSize)
    (hdry : cfg.dryRun = false)
    (hres : ∀ l, cfg.resolve l = some host)
    (h0 : cfg.sendResult 0 = .err code msg)
    (htemp : isTemporarySmtpError code msg = true)
    (h1 : cfg.sendResult 1 = .ok)
    (h2 : cfg.sendResult 2 = .ok)
    (hmsg : msg ≠ "")
    (hretry : 2 ≤ cfg.maxRetry) :
    deliverEmailJob cfg (f + 3) 0 recipients subject =
      some (.thrown
        { message := msg, code := some code, permanent := false,
          summary := some
            { subject := subject, attempted := recipients.length,
              sent := recipients.length, failed := recipients.length,
              errors := [⟨code, msg, recipients⟩] } }, 2) ∧
    deliverWithRetry cfg (f + 3) recipients subject 1 0 =
      some (.resolved
        { subject := subject, attempted := recipients.length,
          sent := recipients.length, failed := 0, errors := [] }, 3) := by
  have hfail := c2_job_fail cfg recipients host code msg subject f 0 hn hB
    hdry hres h0 htemp h1 hmsg
  refine ⟨hfail, ?_⟩
  obtain ⟨m, hm⟩ : ∃ m, cfg.maxRetry = m + 2 :=
    ⟨cfg.maxRetry - 2, by omega⟩
  unfold deliverWithRetry
  rw [hm]
  rw [deliverWithRetryAux, hfail]
  dsimp only
  rw [if_pos ⟨by omega, rfl⟩]
  norm_num
  rw [deliverWithRetryAux,
    c2_job_ok cfg recipients host subject f 2 hn hB hdry hres h2]

/-- Witness for C2's amended statement at the concrete configuration. -/
theorem retry_temp_then_success_witness :
    deliverWithRetry cfgTempRetry 3 ["a@x.com"] "s" 1 0 =
      some (.resolved ⟨"s", 1, 1, 0, []⟩, 3) :=
  (retry_temp_then_success cfgTempRetry ["a@x.com"] "h" "421"
    "rate limited" "s" 0 (by decide) (by decide) rfl (fun _ => rfl) rfl
    (by decide) rfl rfl (by decide) (by decide)).2

/-- C4 counterexample: with no resolvable transport the call does raise
a permanent `transport_unavailable` error without any send attempt
(`calls = 0`), but the job IS first enqueued — the run's events record
the durable-snapshot append and the in-memory enqueue before the
failure, refuting "the job is never enqueued". -/
theorem transport_unavailable_counterexample :
    sendEmail cfgNoTransport 5 [some "a@x.com"] "s" "body" =
      some ⟨.raised ⟨"SMTP transport unavailable", none, true,
        some ⟨"s", 1, 0, 1, [⟨"transport_unavailable",
          "SMTP transport unavailable", ["a@x.com"]⟩]⟩⟩,
        [.persistAdd ["a@x.com"], .enqueuedMem ["a@x.com"],
          .persistRemove], 0⟩ := by
  decide

/-- C4 amended: when no transport resolves, `sendEmail` raises a
permanent error whose summary marks all recipients failed under
`transport_unavailable`, with zero transport invocations and no
job-level retry — but only after the job has been appended to the
in-memory queue and the durable snapshot (from which it is removed once
the job settles), as the recorded events show. -/
theorem transport_unavailable_raises (cfg : EmailCfg) (fuel : Nat)
    (toRaw : List (Option String)) (subject body : String)
    (recipients : List String)
    (hrec : dedupFirst (partitionEmails toRaw).1 = recipients)
    (hn : recipients ≠ [])
    (hdry : cfg.dryRun = false)
    (hres : cfg.resolve [] = none) :
    sendEmail cfg fuel toRaw subject body =
      some ⟨.raised
        { message := "SMTP transport unavailable", code := none,
          permanent := true,
          summary := some
            { subject := smtpSubjectOf subject,
              attempted := recipients.length, sent := 0,
              failed := recipients.length,
              errors := [⟨"transport_unavailable",
                "SMTP transport unavailable", recipients⟩] } },
        [.persistAdd recipients, .enqueuedMem recipients, .persistRemove],
        0⟩ := by
  have hjob : deliverEmailJob cfg fuel 0 recipients
      (smtpSubjectOf subject) =
      some (.thrown
        { message := "SMTP transport unavailable", code := none,
          permanent := true,
          summary := some
            { subject := smtpSubjectOf subject,
              attempted := recipients.length, sent := 0,
              failed := recipients.length,
              errors := [⟨"transport_unavailable",
                "SMTP transport unavailable", recipients⟩] } }, 0) := by
    unfold deliverEmailJob
    rw [if_neg (by simp [hdry]), hres]
  have hretry : deliverWithRetry cfg fuel recipients
      (smtpSubjectOf subject) 1 0 =
      some (.thrown
        { message := "SMTP transport unavailable", code := none,
          permanent := true,
          summary := some
            { subject := smtpSubjectOf subject,
              attempted := recipients.length, sent := 0,
              failed := recipients.length,
              errors := [⟨"transport_unavailable",
                "SMTP transport unavailable", recipients⟩] } }, 0) := by
    unfold deliverWithRetry
    rw [deliverWithRetryAux, hjob]
    simp
  unfold sendEmail
  dsimp only
  rw [hrec, if_neg (by simp [isEmpty_false_of_ne hn]), hretry]
  dsimp only
  simp

/-- Witness for C4's amended statement at a concrete input. -/
theorem transport_unavailable_raises_witness :
    sendEmail cfgNoTransport 7 [some "b@y.org"] "t" "b" =
      some ⟨.raised
        { message := "SMTP transport unavailable", code := none,
          permanent := true,
          summary := some
            { subject := smtpSubjectOf "t", attempted := 1, sent := 0,
              failed := 1,
              errors := [⟨"transport_unavailable",
                "SMTP transport unavailable", ["b@y.org"]⟩] } },
        [.persistAdd ["b@y.org"], .enqueuedMem ["b@y.org"],
          .persistRemove], 0⟩ := by
  have h := transport_unavailable_raises cfgNoTransport 7 [some "b@y.org"]
    "t" "b" ["b@y.org"] (by decide) (by decide) rfl rfl
  simpa using h

/-- C8: invalid addresses never reach the queue — every enqueued job's
recipient list consists only of addresses passing `EMAIL_REGEX.test` —
and a call whose recipients all filter out returns successfully with no
queue event (nothing added to the in-memory queue or the durable
snapshot, no error raised, no send attempted). -/
theorem sendEmail_filters_and_skips :
    (∀ (cfg : EmailCfg) (fuel : Nat) (toRaw : List (Option String))
        (subject body : String),
      dedupFirst (partitionEmails toRaw).1 = [] →
      sendEmail cfg fuel toRaw subject body = some ⟨.ok, [], 0⟩) ∧
    (∀ (cfg : EmailCfg) (fuel : Nat) (toRaw : List (Option String))
        (subject body : String) (res : SendRunResult),
      sendEmail cfg fuel toRaw subject body = some res →
      ∀ rs, (EmailEvent.enqueuedMem rs ∈ res.events ∨
          EmailEvent.persistAdd rs ∈ res.events) →
        ∀ r ∈ rs, emailRegexTest r = true) := by
  constructor
  · intro cfg fuel toRaw subject body hempty
    unfold sendEmail
    dsimp only
    rw [if_pos (by simp [hempty])]
  · intro cfg fuel toRaw subject body res h rs hmem r hr
    have hval : rs = dedupFirst (partitionEmails toRaw).1 := by
      rcases sendEmail_events_cases h with hev | hev
      · rw [hev] at hmem
        rcases hmem with hmem | hmem <;> simp at hmem
      · rw [hev] at hmem
        rcases hmem with hmem | hmem <;> simpa using hmem
    rw [hval] at hr
    exact mem_valid_partitionEmails (mem_dedupFirst hr)

/-- Witness for C8: a call with only an invalid address returns
successfully with no queue event. -/
theorem sendEmail_filters_and_skips_witness :
    sendEmail cfgNoTransport 5 [some "not-an-email"] "s" "b" =
      some ⟨.ok, [], 0⟩ :=
  sendEmail_filters_and_skips.1 cfgNoTransport 5 [some "not-an-email"]
    "s" "b" (by decide)

end DashDao
